import Mathlib

/-!
Verification development for the executor core of the vmaf repository
(src/python/executor.py and src/python/quality_runner.py).

The Python code is shallowly embedded: the observable machine state (work
files, directories, log files, the result store) is an explicit `World`
record, side effects are recorded as an explicit list of `Event`s returned
alongside each result, and Python exceptions become `Except PyError`.
Collaborators that the repository code calls but whose sources are not part
of the two files above (the Asset value class, the Result value class, the
ResultCache store, the helpers in tools.py and mixin.py) are modelled from
the spec; each such definition says so in its doc comment.
-/

/-- Asset: the per-job input identity record.  The Asset class itself is an
external value object (asset.py is not under src/); the fields are exactly
the attributes read by src/python/executor.py: dataset, content_id,
asset_id (lines 66-67), ref_path, dis_path (lines 188, 206),
ref_workfile_path, dis_workfile_path (lines 130-131, 150-151, 189, 207,
232, 238), and the three width-height pairs (lines 77-79). -/
structure Asset where
  dataset : String
  content_id : Int
  asset_id : Int
  ref_path : String
  dis_path : String
  ref_workfile_path : String
  dis_workfile_path : String
  quality_width_height : Int × Int
  ref_width_height : Int × Int
  dis_width_height : Int × Int
deriving DecidableEq, Repr

/-- The identity triple of an asset, as used by the uniqueness assert in
src/python/executor.py lines 66-67. -/
def Asset.identity (a : Asset) : String × Int × Int :=
  (a.dataset, a.content_id, a.asset_id)

/-- Modelled from the spec: the per-job asset descriptor string produced by
str(asset) in src/python/executor.py line 176; Asset.__str__ is not under
src/.  The spec (section 6, filesystem layout) only requires a deterministic
per-job descriptor. -/
def Asset.descriptor (a : Asset) : String :=
  a.dataset ++ "_" ++ toString a.content_id ++ "_" ++ toString a.asset_id

/-- Modelled from the spec: the Result value class (result.py is not under
src/).  Spec section 3: a Result is the triple of the asset, the executor
identity string and a mapping from metric name to numeric value; it is
exactly what quality_runner.py line 29 constructs. -/
structure Result where
  asset : Asset
  executor_id : String
  scores : List (String × Int)
deriving DecidableEq, Repr

/-- One entry of the result store, keyed by asset identity and executor
identity (spec section 6, ResultCache collaborator). -/
structure StoreEntry where
  aid : String × Int × Int
  eid : String
  result : Result
deriving DecidableEq, Repr

/-- Modelled from the spec: ResultCache.load by (asset identity, executor
identity); the concrete store implementation is not under src/. -/
def storeLoad (s : List StoreEntry) (aid : String × Int × Int) (eid : String) :
    Option Result :=
  (s.find? (fun e => e.aid == aid && e.eid == eid)).map (fun e => e.result)

/-- Modelled from the spec: ResultCache.save(result); the key is derived
from the result itself.  A newer entry shadows an older one under load. -/
def storeSave (s : List StoreEntry) (r : Result) : List StoreEntry :=
  ⟨r.asset.identity, r.executor_id, r⟩ :: s

/-- Modelled from the spec: ResultCache.delete by key; removes every entry
stored under the given (asset identity, executor identity). -/
def storeDelete (s : List StoreEntry) (aid : String × Int × Int) (eid : String) :
    List StoreEntry :=
  s.filter (fun e => !(e.aid == aid && e.eid == eid))

/-- Events recording the side effects of a run, in program order. -/
inductive Event where
  | info (msg : String)
  | warn (msg : String)
  | printed (msg : String)
  | removeFile (path : String)
  | makeParentDirs (path : String)
  | shell (cmd : String)
  | spawnFifoWriter (side : String) (a : Asset)
  | genLogFile (path : String)
  | rmdirDone (dir : String)
  | rmdirSwallowed (dir : String) (errno : Nat)
  | cacheSave (r : Result)
deriving DecidableEq, Repr

/-- Whether an event is a pure logger message (no state effect). -/
def Event.isInfoMsg : Event → Bool
  | Event.info _ => true
  | _ => false

/-- Whether an event marks an invocation of the computation step, that is,
of _run_and_generate_log_file (src/python/executor.py lines 83-97). -/
def Event.isCompute : Event → Bool
  | Event.genLogFile _ => true
  | _ => false

/-- Number of computation-step invocations recorded in a trace. -/
def compCount (t : List Event) : Nat :=
  (t.filter Event.isCompute).length

/-- The observable machine state: existing work files, existing directories,
log files with their contents, and the result store. -/
structure World where
  files : List String
  dirs : List String
  logs : List (String × String)
  store : List StoreEntry
deriving DecidableEq, Repr

/-- Modelled from the spec: tools.get_dir_without_last_slash (tools.py is
not under src/); per spec sections 3 and 4 it maps a path to its parent
directory, i.e. drops the last slash-separated component. -/
def get_dir_without_last_slash (path : String) : String :=
  String.mk ((((path.toList.reverse).dropWhile (fun c => c ≠ '/')).drop 1).reverse)

/-- Content of a log file, if it exists. -/
def logGet (logs : List (String × String)) (p : String) : Option String :=
  (logs.find? (fun q => q.1 == p)).map (fun q => q.2)

/-- Create or overwrite a log file with the given content
(Python open with mode wt). -/
def logSet (logs : List (String × String)) (p s : String) :
    List (String × String) :=
  (p, s) :: logs.filter (fun q => q.1 != p)

/-- Append to a log file, creating it when absent
(Python open with mode at). -/
def logAppend (logs : List (String × String)) (p s : String) :
    List (String × String) :=
  logSet logs p (((logGet logs p).getD "") ++ s)

/-- Modelled from the spec: tools.make_parent_dirs_if_nonexist (tools.py is
not under src/); spec section 4 step 4: create the parent directory of the
given path when missing. -/
def make_parent_dirs_if_nonexist (path : String) (w : World) :
    World × List Event :=
  (if get_dir_without_last_slash path ∈ w.dirs then w
   else { w with dirs := get_dir_without_last_slash path :: w.dirs },
   [Event.makeParentDirs path])

/-- Whether a directory has any entry (file or other directory) directly
inside it; used to decide whether rmdir fails with ENOTEMPTY. -/
def dir_nonempty (w : World) (d : String) : Bool :=
  w.files.any (fun f => get_dir_without_last_slash f == d) ||
  w.dirs.any (fun d2 => (d2 != d) && (get_dir_without_last_slash d2 == d))

/-- os.rmdir: errno 2 (ENOENT) when the directory does not exist, errno 39
(ENOTEMPTY) when it still has entries, otherwise removes it. -/
def fsRmdir (w : World) (d : String) : Except Nat World :=
  if d ∈ w.dirs then
    if dir_nonempty w d then Except.error 39
    else Except.ok { w with dirs := w.dirs.filter (fun d2 => d2 != d) }
  else Except.error 2

/-- _close_ref_workfile / _close_dis_workfile (src/python/executor.py lines
230-240): remove the work file if it exists; no error when absent. -/
def close_workfile (path : String) (w : World) : World × List Event :=
  (if path ∈ w.files then { w with files := w.files.filter (fun f => f != path) }
   else w,
   if path ∈ w.files then [Event.removeFile path] else [])

/-- Errors corresponding to the Python exceptions the embedded code can
raise: assert failures, OSError with an errno, IndexError from indexing an
empty list, KeyError from a format call whose placeholder has no matching
keyword argument. -/
inductive PyError where
  | assertionError (msg : String)
  | osError (errno : Nat)
  | indexError
  | keyError (name : String)
deriving DecidableEq, Repr

/-- Configuration of one Executor instance: the class TYPE and VERSION tags,
the constructor arguments of src/python/executor.py lines 19-36, and the
subtype hook _get_quality_scores used by QualityRunner._read_result
(src/python/quality_runner.py lines 25-29), which is the per-subtype way of
reading scores out of the log. -/
structure ExecutorConfig where
  TYPE : String
  VERSION : String
  log_file_dir : String
  fifo_mode : Bool
  delete_workdir : Bool
  hasLogger : Bool
  use_result_store : Bool
  get_quality_scores : Asset → List (String × Int)

/-- Modelled from the spec: TypeVersionEnabled.get_type_version_string
(mixin.py is not under src/); spec section 3: a string composed
deterministically from the TYPE and VERSION tags (executor_id property,
src/python/executor.py lines 40-42). -/
def ExecutorConfig.executor_id (cfg : ExecutorConfig) : String :=
  cfg.TYPE ++ "_V" ++ cfg.VERSION

/-- _get_log_file_path (src/python/executor.py lines 173-176): the
deterministic per-job log path log_file_dir/executor_id/descriptor. -/
def log_file_path (cfg : ExecutorConfig) (a : Asset) : String :=
  cfg.log_file_dir ++ "/" ++ cfg.executor_id ++ "/" ++ a.descriptor

/-- QualityRunner._read_result (src/python/quality_runner.py lines 25-29):
wrap the subtype quality scores with the asset and the executor identity
into a Result. -/
def read_result (cfg : ExecutorConfig) (a : Asset) : Result :=
  ⟨a, cfg.executor_id, cfg.get_quality_scores a⟩

/-- The copy command built by _open_file (src/python/executor.py lines
223-225).  The source comment on line 223 notes the trailing ampersand is
required for fifo mode; the command is built identically in both modes, so
the shell detaches the copy in both modes. -/
def cp_cmd (src dst : String) : String :=
  "cp " ++ src ++ " " ++ dst ++ " &"

/-- True when the last character of a shell command is the ampersand, i.e.
the shell starts the command in the background and the subprocess.call on
src/python/executor.py line 228 returns without waiting for it. -/
def ends_in_ampersand (s : String) : Bool :=
  match s.data.getLast? with
  | some c => c == '&'
  | none => false

/-- _open_file (src/python/executor.py lines 216-228): log the copy command
when a logger is set, then hand it to the shell.  The shell returns
immediately (trailing ampersand); the destination entry appears, its
content filling in concurrently. -/
def open_file (cfg : ExecutorConfig) (src dst : String) (w : World) :
    World × List Event :=
  ({ w with files := dst :: w.files },
   (if cfg.hasLogger then [Event.info (cp_cmd src dst)] else []) ++
     [Event.shell (cp_cmd src dst)])

/-- Lines 133-142 of src/python/executor.py: in fifo mode start two
detached writer processes (their mkfifo and copy run concurrently in the
children and are external to this state); otherwise call _open_ref_workfile
and _open_dis_workfile in the parent, each of which hands a backgrounded
copy command to the shell via _open_file. -/
def open_workfiles (cfg : ExecutorConfig) (a : Asset) (w : World) :
    World × List Event :=
  if cfg.fifo_mode then
    (w, [Event.spawnFifoWriter "ref" a, Event.spawnFifoWriter "dis" a])
  else
    ((open_file cfg a.dis_path a.dis_workfile_path
        (open_file cfg a.ref_path a.ref_workfile_path w).1).1,
     (open_file cfg a.ref_path a.ref_workfile_path w).2 ++
       (open_file cfg a.dis_path a.dis_workfile_path
         (open_file cfg a.ref_path a.ref_workfile_path w).1).2)

/-- _run_and_generate_log_file (src/python/executor.py lines 83-97): create
the log parent directory if missing, truncate the log file to empty (open
mode wt), then append the TYPE VERSION header followed by a blank line
(open mode at).  This is the computation-step slot: subclasses extend it to
append their own content afterwards. -/
def run_and_generate_log_file (cfg : ExecutorConfig) (a : Asset) (w : World) :
    World × List Event :=
  ((make_parent_dirs_if_nonexist (log_file_path cfg a) w).1.logs
     |> (fun logs0 => logAppend (logSet logs0 (log_file_path cfg a) "")
          (log_file_path cfg a)
          (cfg.TYPE ++ " VERSION " ++ cfg.VERSION ++ "\n\n"))
     |> (fun logs1 =>
          { (make_parent_dirs_if_nonexist (log_file_path cfg a) w).1 with
              logs := logs1 }),
   [Event.genLogFile (log_file_path cfg a), Event.makeParentDirs (log_file_path cfg a)])

/-- Lines 146-158 of src/python/executor.py: remove both work files, then
os.rmdir the ref parent directory with no guard (its failure propagates),
then os.rmdir the dis parent directory inside try-except OSError.  The
except body only tests errno equal to 2 and passes; an OSError with any
other errno is also caught and falls off the end of the except block, so
every OSError of the second rmdir is swallowed. -/
def cleanup (a : Asset) (w : World) : Except PyError (World × List Event) :=
  match fsRmdir (close_workfile a.dis_workfile_path
           (close_workfile a.ref_workfile_path w).1).1
          (get_dir_without_last_slash a.ref_workfile_path) with
  | Except.error e => Except.error (PyError.osError e)
  | Except.ok w1 =>
    match fsRmdir w1 (get_dir_without_last_slash a.dis_workfile_path) with
    | Except.ok w2 =>
      Except.ok (w2,
        (close_workfile a.ref_workfile_path w).2 ++
        (close_workfile a.dis_workfile_path
          (close_workfile a.ref_workfile_path w).1).2 ++
        [Event.rmdirDone (get_dir_without_last_slash a.ref_workfile_path),
         Event.rmdirDone (get_dir_without_last_slash a.dis_workfile_path)])
    | Except.error e =>
      Except.ok (w1,
        (close_workfile a.ref_workfile_path w).2 ++
        (close_workfile a.dis_workfile_path
          (close_workfile a.ref_workfile_path w).1).2 ++
        [Event.rmdirDone (get_dir_without_last_slash a.ref_workfile_path),
         Event.rmdirSwallowed (get_dir_without_last_slash a.dis_workfile_path) e])

/-- The logger message of the cache-hit branch (src/python/executor.py
lines 117-119), already formatted. -/
def hit_message (cfg : ExecutorConfig) : String :=
  cfg.executor_id ++ " result exists. Skip " ++ cfg.executor_id ++ " run."

/-- The logger message of the cache-miss branch (src/python/executor.py
lines 121-123), already formatted. -/
def miss_message (cfg : ExecutorConfig) : String :=
  cfg.executor_id ++ " result does not exist. Perform " ++
    cfg.executor_id ++ " calculation."

/-- The assert message of _assert_an_asset (src/python/executor.py lines
73-79). -/
def dim_message : String :=
  "quality, ref and dis width-height must agree"

/-- The assert message of _assert_assets (src/python/executor.py line 71). -/
def uniq_message : String :=
  "Triplet of dataset, content_id and asset_id must be unique for each asset."

/-- The cache-miss body of _run_on_asset (src/python/executor.py lines
120-171): log the miss, remove stale work files early, create the work
directories, open both work files (fifo or plain), run the computation
step, optionally delete the work directory, then (logger permitting) read
the result and save it to the store.  The logger call on lines 160-162
formats a string whose placeholder id has no matching keyword argument
(only type is supplied), so with a logger set it raises KeyError before the
result is read. -/
def run_on_asset_miss (cfg : ExecutorConfig) (a : Asset) (w0 : World) :
    Except PyError (Result × World × List Event) :=
  let t0 : List Event :=
    if cfg.hasLogger then [Event.info (miss_message cfg)] else []
  let s1 := close_workfile a.ref_workfile_path w0
  let s2 := close_workfile a.dis_workfile_path s1.1
  let s3 := make_parent_dirs_if_nonexist a.ref_workfile_path s2.1
  let s4 := make_parent_dirs_if_nonexist a.dis_workfile_path s3.1
  let s5 := open_workfiles cfg a s4.1
  let s6 := run_and_generate_log_file cfg a s5.1
  match (if cfg.delete_workdir then cleanup a s6.1
         else Except.ok (s6.1, ([] : List Event))) with
  | Except.error e => Except.error e
  | Except.ok s7 =>
    if cfg.hasLogger then Except.error (PyError.keyError "id")
    else
      let r := read_result cfg a
      let s8 : World × List Event :=
        if cfg.use_result_store then
          ({ s7.1 with store := storeSave s7.1.store r }, [Event.cacheSave r])
        else (s7.1, [])
      Except.ok (r, s8.1,
        t0 ++ s1.2 ++ s2.2 ++ s3.2 ++ s4.2 ++ s5.2 ++ s6.2 ++ s7.2 ++ s8.2)

/-- _run_on_asset (src/python/executor.py lines 99-171): assert the
dimension invariant, probe the result store, and on a hit log and return
the stored Result with no further step; on a miss run the full pipeline. -/
def run_on_asset (cfg : ExecutorConfig) (a : Asset) (w : World) :
    Except PyError (Result × World × List Event) :=
  if a.quality_width_height = a.ref_width_height ∧
      a.ref_width_height = a.dis_width_height then
    match (if cfg.use_result_store
           then storeLoad w.store a.identity cfg.executor_id
           else none) with
    | some r =>
      Except.ok (r, w,
        if cfg.hasLogger then [Event.info (hit_message cfg)] else [])
    | none => run_on_asset_miss cfg a w
  else Except.error (PyError.assertionError dim_message)

/-- _assert_assets (src/python/executor.py lines 64-71): the length of the
list of identity triples must equal the length of its set of distinct
triples. -/
def assert_assets (assets : List Asset) : Bool :=
  (assets.map Asset.identity).length == (assets.map Asset.identity).dedup.length

/-- Executor construction (src/python/executor.py lines 19-38): the
constructor stores its arguments and runs _assert_assets, raising
AssertionError on a duplicate identity triple before any work happens. -/
def executor_init (assets : List Asset) : Except PyError (List Asset) :=
  if assert_assets assets then Except.ok assets
  else Except.error (PyError.assertionError uniq_message)

/-- The run method loop (src/python/executor.py line 52): Python 2 map,
applying _run_on_asset to each asset in order, the state threading through;
the first exception aborts the batch. -/
def run_assets (cfg : ExecutorConfig) :
    List Asset → World → Except PyError (List Result × World × List Event)
  | [], w => Except.ok ([], w, [])
  | a :: rest, w =>
    match run_on_asset cfg a w with
    | Except.error e => Except.error e
    | Except.ok (r, w1, t1) =>
      match run_assets cfg rest w1 with
      | Except.error e => Except.error e
      | Except.ok (rs, w2, t2) => Except.ok (r :: rs, w2, t1 ++ t2)

/-- Executor.run (src/python/executor.py lines 44-54).  The opening logger
call on lines 46-49 formats a string whose placeholder id has no matching
keyword argument (only type is supplied), so with a logger set run raises
KeyError immediately; with no logger it maps _run_on_asset over the assets
and stores the result list. -/
def executor_run (cfg : ExecutorConfig) (assets : List Asset) (w : World) :
    Except PyError (List Result × World × List Event) :=
  if cfg.hasLogger then Except.error (PyError.keyError "id")
  else run_assets cfg assets w

/-- Construct an Executor on a batch and run it: the uniqueness assert of
the constructor runs before any per-asset work. -/
def executor_run_batch (cfg : ExecutorConfig) (assets : List Asset)
    (w : World) : Except PyError (List Result × World × List Event) :=
  match executor_init assets with
  | Except.error e => Except.error e
  | Except.ok checked => executor_run cfg checked w

/-- An executor instance after its run, as seen by the aggregation step of
run_executors_in_parallel: the singleton asset list it was built on and
its results field. -/
structure ExecutorRun where
  assets : List Asset
  results : List Result
deriving DecidableEq, Repr

/-- run_executor (src/python/executor.py lines 266-272): build an Executor
on the singleton batch of one asset, with logger None regardless of the
logger handed to the driver, run it and return it. -/
def run_executor (cfg : ExecutorConfig) (a : Asset) (w : World) :
    Except PyError (ExecutorRun × World × List Event) :=
  match executor_init [a] with
  | Except.error e => Except.error e
  | Except.ok checked =>
    match executor_run { cfg with hasLogger := false } checked w with
    | Except.error e => Except.error e
    | Except.ok (rs, w1, t1) => Except.ok (⟨checked, rs⟩, w1, t1)

/-- The map of run_executor over the argument list (src/python/executor.py
lines 274-296).  The parallel backend pathos.pp_map is an external
collaborator; per spec sections 4.3 and 5 it returns the executors in
input order regardless of completion order, so both the parallel and the
sequential map are this order-preserving loop. -/
def run_executor_loop (cfg : ExecutorConfig) :
    List Asset → World → Except PyError (List ExecutorRun × World × List Event)
  | [], w => Except.ok ([], w, [])
  | a :: rest, w =>
    match run_executor cfg a w with
    | Except.error e => Except.error e
    | Except.ok (ex, w1, t1) =>
      match run_executor_loop cfg rest w1 with
      | Except.error e => Except.error e
      | Except.ok (exs, w2, t2) => Except.ok (ex :: exs, w2, t1 ++ t2)

/-- The fallback warning text of src/python/executor.py lines 288-289. -/
def fallback_msg : String :=
  "pathos.pp_map cannot be imported, fall back to sequential map(). Install pathos by: \npip install pathos"

/-- How the fallback is reported (src/python/executor.py lines 290-293):
through the logger when one is present, otherwise printed. -/
def fallback_event (cfg : ExecutorConfig) : Event :=
  if cfg.hasLogger then Event.warn fallback_msg
  else Event.printed ("Warn: " ++ fallback_msg)

/-- The aggregation step (src/python/executor.py line 299): the list
comprehension executor.results[0]; indexing an empty results list raises
IndexError, while extra results beyond the first are ignored. -/
def aggregate : List ExecutorRun → Except PyError (List Result)
  | [] => Except.ok []
  | ex :: rest =>
    match ex.results with
    | [] => Except.error PyError.indexError
    | r :: _ =>
      match aggregate rest with
      | Except.error e => Except.error e
      | Except.ok rs => Except.ok (r :: rs)

/-- run_executors_in_parallel (src/python/executor.py lines 246-301):
build one singleton executor per asset, map run_executor over them through
the parallel backend when requested and importable (falling back to the
sequential map with a warning when it is not), then aggregate the first
result of every executor, preserving input order. -/
def run_executors_in_parallel (cfg : ExecutorConfig) (assets : List Asset)
    (parallelize pp_importable : Bool) (w : World) :
    Except PyError ((List ExecutorRun × List Result) × World × List Event) :=
  match (if parallelize then
           if pp_importable then run_executor_loop cfg assets w
           else
             match run_executor_loop cfg assets w with
             | Except.error e => Except.error e
             | Except.ok (exs, w1, t1) =>
               Except.ok (exs, w1, fallback_event cfg :: t1)
         else run_executor_loop cfg assets w) with
  | Except.error e => Except.error e
  | Except.ok (exs, w1, t1) =>
    match aggregate exs with
    | Except.error e => Except.error e
    | Except.ok rs => Except.ok ((exs, rs), w1, t1)

/-- Modelled from the spec: Executor._remove_log, called by remove_logs
(src/python/executor.py line 58) but defined only in an Executor subclass
file that is not under src/; spec section 4.1: delete the on-disk log of
the job, idempotent, no error when absent. -/
def remove_log (cfg : ExecutorConfig) (a : Asset) (w : World) : World :=
  { w with logs := w.logs.filter (fun q => q.1 != log_file_path cfg a) }

/-- Executor.remove_logs (src/python/executor.py lines 56-58): remove the
log of every asset of the batch. -/
def remove_logs (cfg : ExecutorConfig) (assets : List Asset) (w : World) :
    World :=
  assets.foldl (fun acc a => remove_log cfg a acc) w

/-- Executor._remove_result (src/python/executor.py lines 242-244): delete
the stored result when a result store is configured, otherwise do
nothing. -/
def remove_result (cfg : ExecutorConfig) (a : Asset) (w : World) : World :=
  if cfg.use_result_store then
    { w with store := storeDelete w.store a.identity cfg.executor_id }
  else w

/-- Executor.remove_results (src/python/executor.py lines 60-62): remove
the stored result of every asset of the batch. -/
def remove_results (cfg : ExecutorConfig) (assets : List Asset) (w : World) :
    World :=
  assets.foldl (fun acc a => remove_result cfg a acc) w

/-- Forget the event trace of a run, keeping the outcome and the final
observable state. -/
def dropTrace {α : Type} :
    Except PyError (α × World × List Event) → Except PyError (α × World)
  | Except.error e => Except.error e
  | Except.ok (x, w, _) => Except.ok (x, w)

/-- A concrete quality-score hook for concrete runs. -/
def gqsW : Asset → List (String × Int) := fun _ => [("vmaf_score", 80)]

/-- A concrete configuration: fifo mode on, no workdir deletion, no logger,
no result store. -/
def cfgW : ExecutorConfig :=
  ⟨"VMAF", "0.1", "logs", true, false, false, false, gqsW⟩

/-- Concrete asset number one. -/
def assetA : Asset :=
  ⟨"test", 0, 0, "d/refA.yuv", "d/disA.yuv", "wrk/jobA/ref.yuv",
   "wrk/jobA/dis.yuv", (576, 324), (576, 324), (576, 324)⟩

/-- Concrete asset number two, distinct identity triple. -/
def assetB : Asset :=
  ⟨"test", 0, 1, "d/refB.yuv", "d/disB.yuv", "wrk/jobB/ref.yuv",
   "wrk/jobB/dis.yuv", (576, 324), (576, 324), (576, 324)⟩

/-- A concrete asset sharing the identity triple of assetA while naming
different paths. -/
def assetAdup : Asset :=
  ⟨"test", 0, 0, "d/refC.yuv", "d/disC.yuv", "wrk/jobC/ref.yuv",
   "wrk/jobC/dis.yuv", (576, 324), (576, 324), (576, 324)⟩

/-- A concrete asset whose two work files share one parent directory. -/
def assetC : Asset :=
  ⟨"test", 1, 0, "d/ref.yuv", "d/dis.yuv", "wrk/job/ref.yuv",
   "wrk/job/dis.yuv", (576, 324), (576, 324), (576, 324)⟩

/-- The empty machine state. -/
def wEmpty : World := ⟨[], [], [], []⟩

/-- A stored result for assetA under the identity of cfgW. -/
def resStored : Result := ⟨assetA, "VMAF_V0.1", [("vmaf_score", 99)]⟩

/-- A state whose result store already holds resStored. -/
def wHit : World := ⟨[], [], [], [⟨("test", 0, 0), "VMAF_V0.1", resStored⟩]⟩

/-- A state holding exactly the two work files of assetC and their shared
parent directory. -/
def wC : World :=
  ⟨["wrk/job/ref.yuv", "wrk/job/dis.yuv"], ["wrk/job"], [], []⟩

theorem compCount_append (t1 t2 : List Event) :
    compCount (t1 ++ t2) = compCount t1 + compCount t2 := by
  simp [compCount, List.filter_append]

theorem close_workfile_store (p : String) (w : World) :
    ((close_workfile p w).1).store = w.store := by
  unfold close_workfile
  split <;> rfl

theorem close_workfile_logs (p : String) (w : World) :
    ((close_workfile p w).1).logs = w.logs := by
  unfold close_workfile
  split <;> rfl

theorem close_workfile_dirs (p : String) (w : World) :
    ((close_workfile p w).1).dirs = w.dirs := by
  unfold close_workfile
  split <;> rfl

theorem close_workfile_compCount (p : String) (w : World) :
    compCount ((close_workfile p w).2) = 0 := by
  unfold close_workfile
  split <;> rfl

theorem mkdirs_store (p : String) (w : World) :
    ((make_parent_dirs_if_nonexist p w).1).store = w.store := by
  unfold make_parent_dirs_if_nonexist
  split <;> rfl

theorem mkdirs_logs (p : String) (w : World) :
    ((make_parent_dirs_if_nonexist p w).1).logs = w.logs := by
  unfold make_parent_dirs_if_nonexist
  split <;> rfl

theorem mkdirs_files (p : String) (w : World) :
    ((make_parent_dirs_if_nonexist p w).1).files = w.files := by
  unfold make_parent_dirs_if_nonexist
  split <;> rfl

theorem mkdirs_compCount (p : String) (w : World) :
    compCount ((make_parent_dirs_if_nonexist p w).2) = 0 := rfl

theorem open_file_store (cfg : ExecutorConfig) (src dst : String) (w : World) :
    ((open_file cfg src dst w).1).store = w.store := rfl

theorem open_file_logs (cfg : ExecutorConfig) (src dst : String) (w : World) :
    ((open_file cfg src dst w).1).logs = w.logs := rfl

theorem open_file_compCount (cfg : ExecutorConfig) (src dst : String)
    (w : World) : compCount ((open_file cfg src dst w).2) = 0 := by
  unfold open_file
  cases cfg.hasLogger <;> rfl

theorem open_workfiles_store (cfg : ExecutorConfig) (a : Asset) (w : World) :
    ((open_workfiles cfg a w).1).store = w.store := by
  unfold open_workfiles
  split <;> rfl

theorem open_workfiles_logs (cfg : ExecutorConfig) (a : Asset) (w : World) :
    ((open_workfiles cfg a w).1).logs = w.logs := by
  unfold open_workfiles
  split <;> rfl

theorem open_workfiles_compCount (cfg : ExecutorConfig) (a : Asset)
    (w : World) : compCount ((open_workfiles cfg a w).2) = 0 := by
  unfold open_workfiles
  split
  · rfl
  · rw [compCount_append, open_file_compCount, open_file_compCount]

theorem gen_log_store (cfg : ExecutorConfig) (a : Asset) (w : World) :
    ((run_and_generate_log_file cfg a w).1).store = w.store := by
  unfold run_and_generate_log_file
  simp only
  rw [show ∀ u : World, ({ u with logs := logAppend (logSet u.logs (log_file_path cfg a) "") (log_file_path cfg a) (cfg.TYPE ++ " VERSION " ++ cfg.VERSION ++ "\n\n") } : World).store = u.store from fun u => rfl]
  exact mkdirs_store _ w

theorem gen_log_files (cfg : ExecutorConfig) (a : Asset) (w : World) :
    ((run_and_generate_log_file cfg a w).1).files = w.files := by
  unfold run_and_generate_log_file
  simp only
  rw [show ∀ u : World, ({ u with logs := logAppend (logSet u.logs (log_file_path cfg a) "") (log_file_path cfg a) (cfg.TYPE ++ " VERSION " ++ cfg.VERSION ++ "\n\n") } : World).files = u.files from fun u => rfl]
  exact mkdirs_files _ w

theorem logGet_logSet (logs : List (String × String)) (p s : String) :
    logGet (logSet logs p s) p = some s := by
  simp [logGet, logSet, List.find?]

theorem gen_log_content (cfg : ExecutorConfig) (a : Asset) (w : World) :
    logGet ((run_and_generate_log_file cfg a w).1).logs (log_file_path cfg a) =
      some (cfg.TYPE ++ " VERSION " ++ cfg.VERSION ++ "\n\n") := by
  unfold run_and_generate_log_file
  simp only [logAppend]
  rw [logGet_logSet]
  rw [logGet_logSet]
  rfl

theorem gen_log_compCount (cfg : ExecutorConfig) (a : Asset) (w : World) :
    compCount ((run_and_generate_log_file cfg a w).2) = 1 := rfl

theorem fsRmdir_ok_store (w : World) (d : String) (w1 : World)
    (h : fsRmdir w d = Except.ok w1) : w1.store = w.store := by
  unfold fsRmdir at h
  split at h
  · split at h
    · exact absurd h (by simp)
    · cases h
      rfl
  · exact absurd h (by simp)

theorem fsRmdir_ok_logs (w : World) (d : String) (w1 : World)
    (h : fsRmdir w d = Except.ok w1) : w1.logs = w.logs := by
  unfold fsRmdir at h
  split at h
  · split at h
    · exact absurd h (by simp)
    · cases h
      rfl
  · exact absurd h (by simp)

theorem fsRmdir_ok_files (w : World) (d : String) (w1 : World)
    (h : fsRmdir w d = Except.ok w1) : w1.files = w.files := by
  unfold fsRmdir at h
  split at h
  · split at h
    · exact absurd h (by simp)
    · cases h
      rfl
  · exact absurd h (by simp)

theorem cleanup_ok_store (a : Asset) (w : World) (w1 : World) (t : List Event)
    (h : cleanup a w = Except.ok (w1, t)) : w1.store = w.store := by
  unfold cleanup at h
  split at h
  · exact absurd h (by simp)
  · rename_i wr hr
    split at h
    · rename_i wd hd
      cases h
      rw [fsRmdir_ok_store _ _ _ hd, fsRmdir_ok_store _ _ _ hr,
        close_workfile_store, close_workfile_store]
    · rename_i e hd
      cases h
      rw [fsRmdir_ok_store _ _ _ hr, close_workfile_store, close_workfile_store]

theorem cleanup_ok_logs (a : Asset) (w : World) (w1 : World) (t : List Event)
    (h : cleanup a w = Except.ok (w1, t)) : w1.logs = w.logs := by
  unfold cleanup at h
  split at h
  · exact absurd h (by simp)
  · rename_i wr hr
    split at h
    · rename_i wd hd
      cases h
      rw [fsRmdir_ok_logs _ _ _ hd, fsRmdir_ok_logs _ _ _ hr,
        close_workfile_logs, close_workfile_logs]
    · rename_i e hd
      cases h
      rw [fsRmdir_ok_logs _ _ _ hr, close_workfile_logs, close_workfile_logs]

theorem cleanup_ok_compCount (a : Asset) (w : World) (w1 : World)
    (t : List Event) (h : cleanup a w = Except.ok (w1, t)) : compCount t = 0 := by
  unfold cleanup at h
  split at h
  · exact absurd h (by simp)
  · rename_i wr hr
    split at h
    · rename_i wd hd
      cases h
      rw [compCount_append, compCount_append, close_workfile_compCount,
        close_workfile_compCount]
      rfl
    · rename_i e hd
      cases h
      rw [compCount_append, compCount_append, close_workfile_compCount,
        close_workfile_compCount]
      rfl

theorem run_on_asset_miss_ok (cfg : ExecutorConfig) (a : Asset) (w0 : World)
    (r : Result) (w1 : World) (t : List Event)
    (h : run_on_asset_miss cfg a w0 = Except.ok (r, w1, t)) :
    cfg.hasLogger = false ∧ r = read_result cfg a ∧
    (cfg.use_result_store = true →
      w1.store = storeSave w0.store (read_result cfg a)) ∧
    compCount t = 1 ∧
    logGet w1.logs (log_file_path cfg a) =
      some (cfg.TYPE ++ " VERSION " ++ cfg.VERSION ++ "\n\n") := by
  unfold run_on_asset_miss at h
  simp only at h
  split at h
  · exact absurd h (by simp)
  · rename_i s7 hs7
    split at h
    · exact absurd h (by simp)
    · rename_i hL
      rw [Bool.not_eq_true] at hL
      have hs7store : s7.1.store = w0.store := by
        have hchain :
            ((run_and_generate_log_file cfg a
              (open_workfiles cfg a
                (make_parent_dirs_if_nonexist a.dis_workfile_path
                  (make_parent_dirs_if_nonexist a.ref_workfile_path
                    (close_workfile a.dis_workfile_path
                      (close_workfile a.ref_workfile_path w0).1).1).1).1).1).1).store
              = w0.store := by
          rw [gen_log_store, open_workfiles_store, mkdirs_store, mkdirs_store,
            close_workfile_store, close_workfile_store]
        split at hs7
        · exact (cleanup_ok_store _ _ _ _ hs7).trans hchain
        · cases hs7
          exact hchain
      have hs7logs : logGet s7.1.logs (log_file_path cfg a) =
          some (cfg.TYPE ++ " VERSION " ++ cfg.VERSION ++ "\n\n") := by
        have hchain :
            logGet ((run_and_generate_log_file cfg a
              (open_workfiles cfg a
                (make_parent_dirs_if_nonexist a.dis_workfile_path
                  (make_parent_dirs_if_nonexist a.ref_workfile_path
                    (close_workfile a.dis_workfile_path
                      (close_workfile a.ref_workfile_path w0).1).1).1).1).1).1).logs
              (log_file_path cfg a)
              = some (cfg.TYPE ++ " VERSION " ++ cfg.VERSION ++ "\n\n") :=
          gen_log_content cfg a _
        split at hs7
        · rw [cleanup_ok_logs _ _ _ _ hs7]
          exact hchain
        · cases hs7
          exact hchain
      have hs7comp : compCount s7.2 = 0 := by
        split at hs7
        · exact cleanup_ok_compCount _ _ _ _ hs7
        · cases hs7
          rfl
      split at h
      · rename_i hst
        simp only [Except.ok.injEq, Prod.mk.injEq] at h
        obtain ⟨hr, hw, ht⟩ := h
        refine ⟨hL, hr.symm, fun _ => ?_, ?_, ?_⟩
        · rw [← hw, hs7store]
        · rw [← ht]
          rw [compCount_append, compCount_append, compCount_append,
            compCount_append, compCount_append, compCount_append,
            compCount_append, compCount_append]
          rw [close_workfile_compCount, close_workfile_compCount,
            mkdirs_compCount, mkdirs_compCount, open_workfiles_compCount,
            gen_log_compCount, hs7comp]
          rfl
        · rw [← hw]
          exact hs7logs
      · rename_i hst
        simp only [Except.ok.injEq, Prod.mk.injEq] at h
        obtain ⟨hr, hw, ht⟩ := h
        refine ⟨hL, hr.symm, fun hc => absurd hc (by simp [hst]), ?_, ?_⟩
        · rw [← ht]
          rw [compCount_append, compCount_append, compCount_append,
            compCount_append, compCount_append, compCount_append,
            compCount_append, compCount_append]
          rw [close_workfile_compCount, close_workfile_compCount,
            mkdirs_compCount, mkdirs_compCount, open_workfiles_compCount,
            gen_log_compCount, hs7comp]
          rfl
        · rw [← hw]
          exact hs7logs

theorem run_on_asset_hit (cfg : ExecutorConfig) (a : Asset) (w : World)
    (r : Result)
    (hdim : a.quality_width_height = a.ref_width_height ∧
      a.ref_width_height = a.dis_width_height)
    (hload : (if cfg.use_result_store
              then storeLoad w.store a.identity cfg.executor_id
              else none) = some r) :
    run_on_asset cfg a w = Except.ok (r, w,
      if cfg.hasLogger then [Event.info (hit_message cfg)] else []) := by
  unfold run_on_asset
  rw [if_pos hdim, hload]

theorem storeLoad_save (s : List StoreEntry) (r : Result) :
    storeLoad (storeSave s r) r.asset.identity r.executor_id = some r := by
  simp [storeLoad, storeSave, List.find?]

/-- C2: with a result store configured, a stored result for the job key is
returned as-is with the machine state untouched (no work file step, no log
generation, no parse, no cache write; only logger messages), and running
the same job twice invokes the computation step at most once, the second
run returning the result of the first over an unchanged state. -/
theorem C2_cache_hit_skips_and_idempotent (cfg : ExecutorConfig) (a : Asset)
    (w : World) (hs : cfg.use_result_store = true)
    (hdim : a.quality_width_height = a.ref_width_height ∧
      a.ref_width_height = a.dis_width_height) :
    (∀ r, storeLoad w.store a.identity cfg.executor_id = some r →
      ∃ t, run_on_asset cfg a w = Except.ok (r, w, t) ∧
        t.all Event.isInfoMsg = true ∧ compCount t = 0) ∧
    (∀ r1 w1 t1, run_on_asset cfg a w = Except.ok (r1, w1, t1) →
      compCount t1 ≤ 1 ∧
      ∃ t2, run_on_asset cfg a w1 = Except.ok (r1, w1, t2) ∧
        compCount t2 = 0) := by
  constructor
  · intro r hload
    have hload2 : (if cfg.use_result_store
        then storeLoad w.store a.identity cfg.executor_id
        else none) = some r := by
      rw [hs]
      simpa using hload
    refine ⟨_, run_on_asset_hit cfg a w r hdim hload2, ?_, ?_⟩
    · cases cfg.hasLogger <;> simp [Event.isInfoMsg]
    · cases cfg.hasLogger <;> rfl
  · intro r1 w1 t1 h1
    unfold run_on_asset at h1
    rw [if_pos hdim] at h1
    cases hload : (if cfg.use_result_store
        then storeLoad w.store a.identity cfg.executor_id
        else none) with
    | some r =>
      rw [hload] at h1
      simp only [Except.ok.injEq, Prod.mk.injEq] at h1
      obtain ⟨hr, hw, ht⟩ := h1
      constructor
      · rw [← ht]
        cases cfg.hasLogger <;> simp [compCount, Event.isCompute, List.filter]
      · subst hw
        subst hr
        refine ⟨_, run_on_asset_hit cfg a w r hdim hload, ?_⟩
        cases cfg.hasLogger <;> rfl
    | none =>
      rw [hload] at h1
      obtain ⟨hL, hr, hstw, hcomp, hlogs⟩ :=
        run_on_asset_miss_ok cfg a w r1 w1 t1 h1
      refine ⟨le_of_eq hcomp, ?_⟩
      have hload1 : storeLoad w1.store a.identity cfg.executor_id = some r1 := by
        rw [hstw hs, hr]
        exact storeLoad_save w.store (read_result cfg a)
      have hload1b : (if cfg.use_result_store
          then storeLoad w1.store a.identity cfg.executor_id
          else none) = some r1 := by
        rw [hs]
        simpa using hload1
      refine ⟨_, run_on_asset_hit cfg a w1 r1 hdim hload1b, ?_⟩
      rw [hL]
      rfl

/-- Witness for C2: a concrete stored result is returned untouched. -/
theorem C2_witness :
    ∃ t, run_on_asset { cfgW with use_result_store := true } assetA wHit =
        Except.ok (resStored, wHit, t) ∧
      t.all Event.isInfoMsg = true ∧ compCount t = 0 :=
  (C2_cache_hit_skips_and_idempotent { cfgW with use_result_store := true }
    assetA wHit rfl (by decide)).1 resStored rfl

/-- C9: on a cache miss, a successful run leaves the log file at the
deterministic per-job path holding exactly the executor TYPE VERSION
header line followed by a blank line, whatever the file held before; the
subtype content of the computation step is only appended afterwards. -/
theorem C9_log_header (cfg : ExecutorConfig) (a : Asset) (w : World)
    (r : Result) (w1 : World) (t : List Event)
    (hmiss : (if cfg.use_result_store
              then storeLoad w.store a.identity cfg.executor_id
              else none) = none)
    (hok : run_on_asset cfg a w = Except.ok (r, w1, t)) :
    logGet w1.logs (log_file_path cfg a) =
      some (cfg.TYPE ++ " VERSION " ++ cfg.VERSION ++ "\n\n") := by
  unfold run_on_asset at hok
  split at hok
  · rw [hmiss] at hok
    exact (run_on_asset_miss_ok _ _ _ _ _ _ hok).2.2.2.2
  · exact absurd hok (by simp)

/-- Witness for C9: a concrete miss run stamps the header. -/
theorem C9_witness :
    ∃ r w1 t, run_on_asset cfgW assetA wEmpty = Except.ok (r, w1, t) ∧
      logGet w1.logs (log_file_path cfgW assetA) =
        some (cfgW.TYPE ++ " VERSION " ++ cfgW.VERSION ++ "\n\n") := by
  refine ⟨_, _, _, rfl, ?_⟩
  exact C9_log_header cfgW assetA wEmpty _ _ _ rfl rfl

theorem close_workfile_files_mem (p f : String) (w : World) :
    f ∈ ((close_workfile p w).1).files ↔ (f ∈ w.files ∧ f ≠ p) := by
  unfold close_workfile
  split
  · rename_i hp
    simp [List.mem_filter]
  · rename_i hp
    constructor
    · intro hf
      exact ⟨hf, fun he => hp (he ▸ hf)⟩
    · intro hf
      exact hf.1

theorem close_workfile_trace_no_swallow (p : String) (w : World) (d : String)
    (e : Nat) : Event.rmdirSwallowed d e ∉ (close_workfile p w).2 := by
  unfold close_workfile
  split <;> simp

/-- C5: when the ref and dis work directories coincide, cleanup succeeds:
the only swallowed failure is the errno 2 not-found error of the second
rmdir, which targets the directory the first rmdir already removed; a
failure of the first rmdir always propagates. -/
theorem C5_cleanup_tolerance :
    (∀ (a : Asset) (w : World),
      get_dir_without_last_slash a.ref_workfile_path =
        get_dir_without_last_slash a.dis_workfile_path →
      get_dir_without_last_slash a.ref_workfile_path ∈ w.dirs →
      (∀ f ∈ w.files,
        get_dir_without_last_slash f =
          get_dir_without_last_slash a.ref_workfile_path →
        f = a.ref_workfile_path ∨ f = a.dis_workfile_path) →
      (∀ d ∈ w.dirs, d ≠ get_dir_without_last_slash a.ref_workfile_path →
        get_dir_without_last_slash d ≠
          get_dir_without_last_slash a.ref_workfile_path) →
      ∃ w2 t, cleanup a w = Except.ok (w2, t) ∧
        Event.rmdirSwallowed (get_dir_without_last_slash a.dis_workfile_path)
          2 ∈ t ∧
        ∀ d e, Event.rmdirSwallowed d e ∈ t →
          d = get_dir_without_last_slash a.dis_workfile_path ∧ e = 2) ∧
    (∀ (a : Asset) (w : World) (e : Nat),
      fsRmdir (close_workfile a.dis_workfile_path
          (close_workfile a.ref_workfile_path w).1).1
        (get_dir_without_last_slash a.ref_workfile_path) = Except.error e →
      cleanup a w = Except.error (PyError.osError e)) := by
  constructor
  · intro a w hEq hIn hOnly hNoSub
    set d := get_dir_without_last_slash a.ref_workfile_path with hd
    set w2 := (close_workfile a.dis_workfile_path
      (close_workfile a.ref_workfile_path w).1).1 with hw2
    have hdirs2 : w2.dirs = w.dirs := by
      rw [hw2, close_workfile_dirs, close_workfile_dirs]
    have hfiles2 : ∀ f ∈ w2.files,
        f ∈ w.files ∧ f ≠ a.ref_workfile_path ∧ f ≠ a.dis_workfile_path := by
      intro f hf
      rw [hw2] at hf
      rw [close_workfile_files_mem] at hf
      obtain ⟨hf1, hfd⟩ := hf
      rw [close_workfile_files_mem] at hf1
      exact ⟨hf1.1, hf1.2, hfd⟩
    have hne : dir_nonempty w2 d = false := by
      unfold dir_nonempty
      rw [Bool.or_eq_false_iff]
      constructor
      · rw [List.any_eq_false]
        intro f hf
        obtain ⟨hfw, hfr, hfd⟩ := hfiles2 f hf
        simp only [beq_iff_eq]
        intro hpar
        rcases hOnly f hfw hpar with h | h
        · exact hfr h
        · exact hfd h
      · rw [List.any_eq_false]
        intro d2 hd2
        rw [hdirs2] at hd2
        simp only [Bool.and_eq_true, bne_iff_ne, beq_iff_eq, not_and]
        intro hdd hpar
        exact hNoSub d2 hd2 hdd hpar
    have h1 : fsRmdir w2 d =
        Except.ok { w2 with dirs := w2.dirs.filter (fun d2 => d2 != d) } := by
      unfold fsRmdir
      rw [if_pos (show d ∈ w2.dirs from hdirs2 ▸ hIn)]
      simp [hne]
    have h2 : fsRmdir { w2 with dirs := w2.dirs.filter (fun d2 => d2 != d) }
        (get_dir_without_last_slash a.dis_workfile_path) = Except.error 2 := by
      unfold fsRmdir
      split
      · rename_i hmem
        exfalso
        rw [← hEq] at hmem
        simp [List.mem_filter] at hmem
      · rfl
    refine ⟨{ w2 with dirs := w2.dirs.filter (fun d2 => d2 != d) },
      (close_workfile a.ref_workfile_path w).2 ++
        (close_workfile a.dis_workfile_path
          (close_workfile a.ref_workfile_path w).1).2 ++
        [Event.rmdirDone d,
         Event.rmdirSwallowed
           (get_dir_without_last_slash a.dis_workfile_path) 2],
      ?_, ?_, ?_⟩
    · unfold cleanup
      rw [← hw2, ← hd]
      simp only [h1]
      simp only [h2]
    · simp [List.mem_append]
    · intro d2 e2 hmem
      rw [List.mem_append, List.mem_append] at hmem
      rcases hmem with (hmem | hmem) | hmem
      · exact absurd hmem (close_workfile_trace_no_swallow _ _ _ _)
      · exact absurd hmem (close_workfile_trace_no_swallow _ _ _ _)
      · simp at hmem
        exact hmem
  · intro a w e he
    unfold cleanup
    rw [he]

/-- Witness for C5: a concrete asset whose work files share one parent
directory; cleanup succeeds and only the errno 2 of the second rmdir is
swallowed. -/
theorem C5_witness :
    ∃ w2 t, cleanup assetC wC = Except.ok (w2, t) ∧
      Event.rmdirSwallowed
        (get_dir_without_last_slash assetC.dis_workfile_path) 2 ∈ t ∧
      ∀ d e, Event.rmdirSwallowed d e ∈ t →
        d = get_dir_without_last_slash assetC.dis_workfile_path ∧ e = 2 :=
  C5_cleanup_tolerance.1 assetC wC (by decide) (by decide) (by decide)
    (by decide)

/-- C4 (code bug record): in non-fifo mode the run succeeds while handing
both copy commands to the shell with a trailing ampersand, so the shell
detaches them and the subprocess call returns without waiting; the copies
are not complete when the log-generation step begins, although the spec
asks for synchronous copies in this mode. -/
theorem C4_background_copy :
    ∃ r w1 t, run_on_asset { cfgW with fifo_mode := false } assetA wEmpty =
        Except.ok (r, w1, t) ∧
      Event.shell (cp_cmd assetA.ref_path assetA.ref_workfile_path) ∈ t ∧
      Event.shell (cp_cmd assetA.dis_path assetA.dis_workfile_path) ∈ t ∧
      ends_in_ampersand (cp_cmd assetA.ref_path assetA.ref_workfile_path)
        = true ∧
      ends_in_ampersand (cp_cmd assetA.dis_path assetA.dis_workfile_path)
        = true := by
  refine ⟨_, _, _, rfl, ?_, ?_, ?_, ?_⟩ <;> decide

/-- C3 counterexample: a batch holding two assets with one identity triple
goes through run_executors_in_parallel without rejection: the driver builds
one singleton Executor per asset, so the constructor uniqueness assert
only ever sees singletons; both jobs run (two computation-step invocations
in the trace) and two results come back. -/
theorem C3_counterexample :
    assetA.identity = assetAdup.identity ∧
    ∃ exs rs w1 t,
      run_executors_in_parallel cfgW [assetA, assetAdup] true true wEmpty =
        Except.ok ((exs, rs), w1, t) ∧
      rs.length = 2 ∧ compCount t = 2 := by
  refine ⟨rfl, _, _, _, _, rfl, ?_, ?_⟩ <;> decide

theorem assert_assets_eq_false (assets : List Asset) (i j : Nat)
    (a b : Asset) (hij : i ≠ j) (hi : assets[i]? = some a)
    (hj : assets[j]? = some b) (hab : a.identity = b.identity) :
    assert_assets assets = false := by
  have hlen : i < assets.length := (List.getElem?_eq_some.mp hi).1
  have hnodup : ¬ (assets.map Asset.identity).Nodup := by
    intro hnd
    apply hij
    exact List.getElem?_inj (by simpa using hlen) hnd
      (by rw [List.getElem?_map, List.getElem?_map, hi, hj]; simp [hab])
  unfold assert_assets
  rw [beq_eq_false_iff_ne]
  intro hlen2
  apply hnodup
  have hsub := List.dedup_sublist (assets.map Asset.identity)
  have heq := hsub.eq_of_length hlen2.symm
  rw [← heq]
  exact List.nodup_dedup _

/-- C3 amended: the uniqueness rejection is performed by Executor
construction: a batch containing two assets with one identity triple makes
the constructor assert fail, so building and running an Executor on that
batch stops with the assertion error and no per-asset work happens.  The
parallel driver, by contrast, partitions its batch into singleton
executors and performs no cross-asset uniqueness check (see the recorded
counterexample). -/
theorem C3_batch_construction_rejects (cfg : ExecutorConfig)
    (assets : List Asset) (w : World) (i j : Nat) (a b : Asset)
    (hij : i ≠ j) (hi : assets[i]? = some a) (hj : assets[j]? = some b)
    (hab : a.identity = b.identity) :
    executor_run_batch cfg assets w =
      Except.error (PyError.assertionError uniq_message) := by
  unfold executor_run_batch executor_init
  rw [assert_assets_eq_false assets i j a b hij hi hj hab]
  rfl

/-- Witness for the amended C3: constructing an Executor on a concrete
duplicate batch fails with the uniqueness assertion. -/
theorem C3_witness :
    executor_run_batch cfgW [assetA, assetAdup] wEmpty =
      Except.error (PyError.assertionError uniq_message) :=
  C3_batch_construction_rejects cfgW [assetA, assetAdup] wEmpty 0 1
    assetA assetAdup (by decide) rfl rfl rfl

theorem assert_assets_singleton (a : Asset) : assert_assets [a] = true := by
  unfold assert_assets
  simp only [List.map_cons, List.map_nil]
  rw [List.dedup_cons_of_not_mem (by simp), List.dedup_nil]
  simp

theorem run_executor_ok_singleton (cfg : ExecutorConfig) (a : Asset)
    (w : World) (ex : ExecutorRun) (w1 : World) (t : List Event)
    (h : run_executor cfg a w = Except.ok (ex, w1, t)) :
    ∃ r, ex = ⟨[a], [r]⟩ ∧
      run_on_asset { cfg with hasLogger := false } a w =
        Except.ok (r, w1, t) := by
  unfold run_executor executor_init at h
  rw [assert_assets_singleton] at h
  simp only [if_true] at h
  unfold executor_run run_assets at h
  simp only [Bool.false_eq_true, if_false] at h
  split at h
  · exact absurd h (by simp)
  · rename_i r w2 t2 hrun
    split at hrun
    · exact absurd hrun (by simp)
    · rename_i r0 wa ta hrun0
      simp only [run_assets, Except.ok.injEq, Prod.mk.injEq,
        List.append_nil] at hrun
      obtain ⟨hr, hw2, ht2⟩ := hrun
      simp only [Except.ok.injEq, Prod.mk.injEq] at h
      obtain ⟨hex, hw1, ht⟩ := h
      subst_vars
      exact ⟨r0, rfl, hrun0⟩

theorem aggregate_ok_spec (exs : List ExecutorRun) (rs : List Result)
    (h : aggregate exs = Except.ok rs) :
    rs.length = exs.length ∧
    ∀ i : Nat, rs[i]? =
      (exs[i]?).bind (fun ex : ExecutorRun => ex.results.head?) := by
  induction exs generalizing rs with
  | nil =>
    unfold aggregate at h
    simp only [Except.ok.injEq] at h
    subst h
    refine ⟨rfl, ?_⟩
    intro i
    simp
  | cons ex rest ih =>
    unfold aggregate at h
    rcases hres : ex.results with _ | ⟨r, rest2⟩
    · simp only [hres] at h
      exact absurd h (by simp)
    · simp only [hres] at h
      rcases hagg : aggregate rest with e | rs2
      · simp only [hagg] at h
        exact absurd h (by simp)
      · simp only [hagg, Except.ok.injEq] at h
        subst h
        obtain ⟨hlen, hspec⟩ := ih rs2 hagg
        refine ⟨by simp [hlen], ?_⟩
        intro i
        cases i with
        | zero => simp [hres]
        | succ n => simpa using hspec n

theorem aggregate_isOk_iff (exs : List ExecutorRun) :
    (∃ rs, aggregate exs = Except.ok rs) ↔ ∀ ex ∈ exs, ex.results ≠ [] := by
  induction exs with
  | nil =>
    constructor
    · intro _ ex hmem
      simp at hmem
    · intro _
      exact ⟨[], rfl⟩
  | cons ex rest ih =>
    constructor
    · rintro ⟨rs, h⟩
      unfold aggregate at h
      rcases hres : ex.results with _ | ⟨r, rest2⟩
      · simp only [hres] at h
        exact absurd h (by simp)
      · simp only [hres] at h
        rcases hagg : aggregate rest with e | rs2
        · simp only [hagg] at h
          exact absurd h (by simp)
        · intro ex2 hmem
          rw [List.mem_cons] at hmem
          rcases hmem with hmem | hmem
          · subst hmem
            rw [hres]
            simp
          · exact (ih.mp ⟨rs2, hagg⟩) ex2 hmem
    · intro hall
      have hex : ex.results ≠ [] := hall ex (by simp)
      obtain ⟨rs2, hagg⟩ := ih.mpr (fun e he => hall e (by simp [he]))
      unfold aggregate
      rcases hres : ex.results with _ | ⟨r, rest2⟩
      · exact absurd hres hex
      · simp only [hres, hagg]
        exact ⟨r :: rs2, rfl⟩

/-- C8 counterexample: a singleton executor that produced two results is
not treated as a contract violation by the aggregation step; aggregation
succeeds and silently keeps the first result. -/
theorem C8_counterexample :
    aggregate [⟨[assetA], [resStored, ⟨assetB, "VMAF_V0.1", []⟩]⟩] =
      Except.ok [resStored] := rfl

/-- C8 amended: during aggregation a singleton executor with zero results
is fatal (the IndexError of results[0]): aggregation succeeds exactly when
every executor has a nonempty results list, and then keeps the first
result of each; a surplus result is not detected.  In the driver itself
every singleton executor that ran successfully holds exactly one
result. -/
theorem C8_amended_aggregation (exs : List ExecutorRun) :
    ((∃ rs, aggregate exs = Except.ok rs) ↔ ∀ ex ∈ exs, ex.results ≠ []) ∧
    (∀ rs, aggregate exs = Except.ok rs →
      ∀ i : Nat, rs[i]? =
        (exs[i]?).bind (fun ex : ExecutorRun => ex.results.head?)) ∧
    (∀ cfg a w ex w1 t, run_executor cfg a w = Except.ok (ex, w1, t) →
      ∃ r, ex.results = [r]) := by
  refine ⟨aggregate_isOk_iff exs, ?_, ?_⟩
  · intro rs h i
    exact (aggregate_ok_spec exs rs h).2 i
  · intro cfg a w ex w1 t h
    obtain ⟨r, hr, _⟩ := run_executor_ok_singleton cfg a w ex w1 t h
    exact ⟨r, by rw [hr]⟩

/-- Witness for the amended C8: a concrete zero-result singleton makes
aggregation fail. -/
theorem C8_witness :
    ¬ ∃ rs, aggregate [(⟨[assetA], []⟩ : ExecutorRun)] = Except.ok rs := by
  intro hex
  exact (C8_amended_aggregation [⟨[assetA], []⟩]).1.mp hex ⟨[assetA], []⟩
    (by simp) rfl

theorem run_executor_loop_ok (cfg : ExecutorConfig) (assets : List Asset)
    (w : World) (exs : List ExecutorRun) (w1 : World) (t : List Event)
    (h : run_executor_loop cfg assets w = Except.ok (exs, w1, t)) :
    exs.length = assets.length ∧
    ∀ i : Nat, ∀ a2, assets[i]? = some a2 →
      ∃ r, exs[i]? = some ⟨[a2], [r]⟩ := by
  induction assets generalizing w exs w1 t with
  | nil =>
    unfold run_executor_loop at h
    simp only [Except.ok.injEq, Prod.mk.injEq] at h
    obtain ⟨h1, _, _⟩ := h
    subst h1
    refine ⟨rfl, ?_⟩
    intro i a2 hi
    simp at hi
  | cons a rest ih =>
    unfold run_executor_loop at h
    rcases hex : run_executor cfg a w with e | ⟨ex, w2, t2⟩
    · simp only [hex] at h
      exact absurd h (by simp)
    · simp only [hex] at h
      rcases hloop : run_executor_loop cfg rest w2 with e | ⟨exs2, w3, t3⟩
      · simp only [hloop] at h
        exact absurd h (by simp)
      · simp only [hloop, Except.ok.injEq, Prod.mk.injEq] at h
        obtain ⟨h1, _, _⟩ := h
        subst h1
        obtain ⟨hlen, hspec⟩ := ih w2 exs2 w3 t3 hloop
        obtain ⟨r, hr, _⟩ := run_executor_ok_singleton cfg a w ex w2 t2 hex
        refine ⟨by simp [hlen], ?_⟩
        intro i a2 hi
        cases i with
        | zero =>
          simp only [List.getElem?_cons_zero, Option.some.injEq] at hi ⊢
          subst hi
          subst hr
          exact ⟨r, rfl⟩
        | succ n =>
          simp only [List.getElem?_cons_succ] at hi ⊢
          exact hspec n a2 hi

/-- C1: a successful run of the batch driver returns one result per input
asset: the i-th entry of the returned list is the single result of the
singleton Executor built on the i-th input asset, whichever of the
parallel or sequential paths ran. -/
theorem C1_order_preservation (cfg : ExecutorConfig) (assets : List Asset)
    (parallelize pp_importable : Bool) (w : World)
    (exs : List ExecutorRun) (rs : List Result) (w1 : World) (t : List Event)
    (h : run_executors_in_parallel cfg assets parallelize pp_importable w =
      Except.ok ((exs, rs), w1, t)) :
    rs.length = assets.length ∧ exs.length = assets.length ∧
    ∀ i : Nat, ∀ a, assets[i]? = some a →
      ∃ r, exs[i]? = some ⟨[a], [r]⟩ ∧ rs[i]? = some r := by
  have hinv : (∃ t0, run_executor_loop cfg assets w =
      Except.ok (exs, w1, t0)) ∧ aggregate exs = Except.ok rs := by
    unfold run_executors_in_parallel at h
    rcases hloop : run_executor_loop cfg assets w with e | ⟨exs0, w0, t0⟩
    · cases parallelize <;> cases pp_importable <;> simp [hloop] at h
    · rcases hagg : aggregate exs0 with e2 | rs2
      · cases parallelize <;> cases pp_importable <;> simp [hloop, hagg] at h
      · cases parallelize <;> cases pp_importable <;>
          simp only [hloop, hagg, eq_self_iff_true, Bool.false_eq_true,
            if_true, if_false, Except.ok.injEq, Prod.mk.injEq] at h <;>
        · obtain ⟨⟨h1, h2⟩, h3, h4⟩ := h
          subst h1
          subst h2
          subst h3
          exact ⟨⟨t0, rfl⟩, hagg⟩
  obtain ⟨⟨t0, hloop⟩, hagg⟩ := hinv
  obtain ⟨hlen1, hspec1⟩ := run_executor_loop_ok cfg assets w exs w1 t0 hloop
  obtain ⟨hlen2, hspec2⟩ := aggregate_ok_spec exs rs hagg
  refine ⟨hlen2.trans hlen1, hlen1, ?_⟩
  intro i a hi
  obtain ⟨r, hr⟩ := hspec1 i a hi
  refine ⟨r, hr, ?_⟩
  rw [hspec2 i, hr]
  rfl

/-- Witness for C1: a concrete two-asset parallel run, order preserved. -/
theorem C1_witness :
    ∃ exs rs w1 t,
      run_executors_in_parallel cfgW [assetA, assetB] true true wEmpty =
        Except.ok ((exs, rs), w1, t) ∧
      rs.length = 2 ∧
      ∃ r, exs[1]? = some ⟨[assetB], [r]⟩ ∧ rs[1]? = some r := by
  refine ⟨_, _, _, _, rfl, ?_, ?_⟩
  · exact (C1_order_preservation cfgW [assetA, assetB] true true wEmpty
      _ _ _ _ rfl).1
  · exact (C1_order_preservation cfgW [assetA, assetB] true true wEmpty
      _ _ _ _ rfl).2.2 1 assetB rfl

/-- C6: when the parallel backend cannot be imported, the
parallel-requested run has the same outcome, results and final state as
the sequential run; it does not raise for the missing backend and reports
the fallback, through the logger when present and by printing
otherwise. -/
theorem C6_fallback_equivalence (cfg : ExecutorConfig) (assets : List Asset)
    (w : World) :
    dropTrace (run_executors_in_parallel cfg assets true false w) =
      dropTrace (run_executors_in_parallel cfg assets false false w) ∧
    (∀ res w1 t,
      run_executors_in_parallel cfg assets true false w =
        Except.ok (res, w1, t) → fallback_event cfg ∈ t) ∧
    fallback_event cfg = (if cfg.hasLogger then Event.warn fallback_msg
      else Event.printed ("Warn: " ++ fallback_msg)) := by
  refine ⟨?_, ?_, rfl⟩
  · unfold run_executors_in_parallel
    rcases hloop : run_executor_loop cfg assets w with e | ⟨exs0, w0, t0⟩
    · rfl
    · rcases hagg : aggregate exs0 with e2 | rs2 <;>
        simp [hagg, dropTrace]
  · intro res w1 t h
    unfold run_executors_in_parallel at h
    rcases hloop : run_executor_loop cfg assets w with e | ⟨exs0, w0, t0⟩
    · simp [hloop] at h
    · rcases hagg : aggregate exs0 with e2 | rs2
      · simp [hloop, hagg] at h
      · simp only [hloop, hagg, eq_self_iff_true, Bool.false_eq_true,
          if_true, if_false, Except.ok.injEq, Prod.mk.injEq] at h
        obtain ⟨h1, h2, h3⟩ := h
        rw [← h3]
        simp

theorem run_executor_hasLogger_irrel (cfg : ExecutorConfig) (b1 b2 : Bool)
    (a : Asset) (w : World) :
    run_executor { cfg with hasLogger := b1 } a w =
      run_executor { cfg with hasLogger := b2 } a w := rfl

theorem run_executor_loop_hasLogger_irrel (cfg : ExecutorConfig)
    (b1 b2 : Bool) (assets : List Asset) (w : World) :
    run_executor_loop { cfg with hasLogger := b1 } assets w =
      run_executor_loop { cfg with hasLogger := b2 } assets w := by
  induction assets generalizing w with
  | nil => rfl
  | cons a rest ih =>
    unfold run_executor_loop
    rw [run_executor_hasLogger_irrel cfg b1 b2 a w]
    rcases run_executor { cfg with hasLogger := b2 } a w with e | ⟨ex, w2, t2⟩
    · rfl
    · simp only [ih w2]

/-- C10: the logger handed to the batch driver cannot influence the
computed executors, results or final state: every per-asset Executor is
constructed with a None logger, so the driver logger only selects how the
fallback warning is reported, never what is computed. -/
theorem C10_logger_independence (cfg : ExecutorConfig) (b1 b2 : Bool)
    (assets : List Asset) (parallelize pp_importable : Bool) (w : World) :
    dropTrace (run_executors_in_parallel { cfg with hasLogger := b1 }
      assets parallelize pp_importable w) =
    dropTrace (run_executors_in_parallel { cfg with hasLogger := b2 }
      assets parallelize pp_importable w) := by
  unfold run_executors_in_parallel
  rw [run_executor_loop_hasLogger_irrel cfg b1 b2 assets w]
  rcases hloop : run_executor_loop { cfg with hasLogger := b2 } assets w
    with e | ⟨exs0, w0, t0⟩
  · cases parallelize <;> cases pp_importable <;> rfl
  · rcases hagg : aggregate exs0 with e2 | rs2 <;>
      cases parallelize <;> cases pp_importable <;>
      simp [hagg, dropTrace]

/-- Witness for C6: a concrete fallback run succeeds and reports the
fallback. -/
theorem C6_witness :
    ∃ res w1 t,
      run_executors_in_parallel cfgW [assetA] true false wEmpty =
        Except.ok (res, w1, t) ∧ fallback_event cfgW ∈ t := by
  refine ⟨_, _, _, rfl, ?_⟩
  exact (C6_fallback_equivalence cfgW [assetA] wEmpty).2.1 _ _ _ rfl

theorem remove_logs_spec (cfg : ExecutorConfig) (assets : List Asset)
    (w : World) :
    remove_logs cfg assets w =
      { w with logs := (w.logs.filter
          (fun q => assets.all (fun a => q.1 != log_file_path cfg a))) } := by
  induction assets generalizing w with
  | nil =>
    simp only [remove_logs, List.foldl_nil, List.all_nil, List.filter_true]
  | cons a rest ih =>
    have h1 : remove_logs cfg (a :: rest) w =
        remove_logs cfg rest (remove_log cfg a w) := rfl
    rw [h1, ih]
    unfold remove_log
    simp only [List.filter_filter]
    congr 1
    apply List.filter_congr
    intro x hx
    simp only [List.all_cons]
    rw [Bool.and_comm]

theorem remove_results_no_store (cfg : ExecutorConfig) (assets : List Asset)
    (w : World) (hs : cfg.use_result_store = false) :
    remove_results cfg assets w = w := by
  induction assets generalizing w with
  | nil => rfl
  | cons a rest ih =>
    have h1 : remove_results cfg (a :: rest) w =
        remove_results cfg rest (remove_result cfg a w) := rfl
    rw [h1, show remove_result cfg a w = w by simp [remove_result, hs]]
    exact ih w

theorem remove_results_spec (cfg : ExecutorConfig) (assets : List Asset)
    (w : World) (hs : cfg.use_result_store = true) :
    remove_results cfg assets w =
      { w with store := (w.store.filter
          (fun e => assets.all (fun a =>
            !(e.aid == a.identity && e.eid == cfg.executor_id)))) } := by
  induction assets generalizing w with
  | nil =>
    simp only [remove_results, List.foldl_nil, List.all_nil, List.filter_true]
  | cons a rest ih =>
    have h1 : remove_results cfg (a :: rest) w =
        remove_results cfg rest (remove_result cfg a w) := rfl
    rw [h1, ih]
    unfold remove_result
    rw [if_pos hs]
    unfold storeDelete
    simp only [List.filter_filter]
    congr 1
    apply List.filter_congr
    intro x hx
    simp only [List.all_cons]
    rw [Bool.and_comm]

/-- C7: remove_logs and remove_results are total (no exception), delete
the log file and the stored result of every asset of the batch, are
idempotent, and do nothing when the log, the stored result or the store
itself is absent. -/
theorem C7_remove_logs_results (cfg : ExecutorConfig) (assets : List Asset)
    (w : World) :
    (∀ a ∈ assets,
      logGet (remove_logs cfg assets w).logs (log_file_path cfg a) = none) ∧
    remove_logs cfg assets (remove_logs cfg assets w) =
      remove_logs cfg assets w ∧
    (cfg.use_result_store = true → ∀ a ∈ assets,
      storeLoad (remove_results cfg assets w).store a.identity
        cfg.executor_id = none) ∧
    remove_results cfg assets (remove_results cfg assets w) =
      remove_results cfg assets w ∧
    (cfg.use_result_store = false → remove_results cfg assets w = w) := by
  refine ⟨?_, ?_, ?_, ?_, remove_results_no_store cfg assets w⟩
  · intro a ha
    rw [remove_logs_spec]
    unfold logGet
    rw [List.find?_eq_none.mpr]
    · rfl
    · intro x hx
      rw [List.mem_filter] at hx
      have hall := List.all_eq_true.mp hx.2 a ha
      simp only [bne_iff_ne] at hall
      simp [hall]
  · rw [remove_logs_spec cfg assets w, remove_logs_spec cfg assets]
    congr 1
    rw [List.filter_filter]
    apply List.filter_congr
    intro x hx
    rw [Bool.and_self]
  · intro hs a ha
    rw [remove_results_spec cfg assets w hs]
    unfold storeLoad
    rw [List.find?_eq_none.mpr]
    · rfl
    · intro x hx
      rw [List.mem_filter] at hx
      have hall := List.all_eq_true.mp hx.2 a ha
      simp only [Bool.not_eq_eq_eq_not, Bool.not_true,
        Bool.and_eq_false_iff] at hall
      intro hcontra
      rcases hall with hall | hall <;> rw [hall] at hcontra <;>
        simp at hcontra
  · rcases hs : cfg.use_result_store with _ | _
    · rw [remove_results_no_store cfg assets w hs,
        remove_results_no_store cfg assets w hs]
    · rw [remove_results_spec cfg assets w hs,
        remove_results_spec cfg assets _ hs]
      congr 1
      rw [List.filter_filter]
      apply List.filter_congr
      intro x hx
      rw [Bool.and_self]

/-- Witness for C7: concrete removals leave no log and no stored result. -/
theorem C7_witness :
    logGet (remove_logs cfgW [assetA] wEmpty).logs
        (log_file_path cfgW assetA) = none ∧
    storeLoad (remove_results { cfgW with use_result_store := true }
        [assetA] wHit).store assetA.identity
      (ExecutorConfig.executor_id { cfgW with use_result_store := true })
      = none :=
  ⟨(C7_remove_logs_results cfgW [assetA] wEmpty).1 assetA (by simp),
   (C7_remove_logs_results { cfgW with use_result_store := true } [assetA]
     wHit).2.2.1 rfl assetA (by simp)⟩
